import Mathlib

/-!
Verification of the rtc-lib negotiation core.

Shallow embedding of the connection-orchestration code of rtc-lib:
`src/remote_peer.ts` (class `RemotePeer`), `src/room.ts` (class `Room`)
and the legacy `src/remote_peer.coffee`.

Modelling conventions:
* A JavaScript promise is denoted by its eventual outcome `Except Err a`
  (a rejected promise is `.error e`, a fulfilled one `.ok v`).  Pending
  promises do not occur in the theorems below: every claim either supplies
  the outcomes of the awaited promises as parameters or quantifies over
  them.
* A JavaScript record (`Record<string, T>` built by `obj[k] = v`
  assignments) is an association list in insertion order; assignment to an
  existing key replaces the value in place, assignment to a fresh key
  appends.  `Object.assign` is a left fold of such assignments.
* Side effects on the external transport (`PeerConnection`) are collected
  in a call log, so that "executes at most once" is the statement that a
  repeated call contributes an empty log.
-/

/-- Rejection reasons of the promises occurring in the modelled code.
`usage_add_streams` and `usage_add_channels` stand for the literal string
messages rejected by `RemotePeer.addStream` / `RemotePeer.addDataChannel`
when `auto_connect` is not `false`; `stream_failed` is an arbitrary failure
of a local stream promise; `join_failed` an arbitrary failure of the
signaling connect. -/
inductive Err
  | usage_add_streams
  | usage_add_channels
  | stream_failed (tag : Nat)
  | join_failed (tag : Nat)
deriving DecidableEq

instance exceptDecEq {ε α : Type} [DecidableEq ε] [DecidableEq α] :
    DecidableEq (Except ε α) := fun x y =>
  match x, y with
  | .error e, .error f => decidable_of_iff (e = f) (by simp)
  | .error _, .ok _ => isFalse (by simp)
  | .ok _, .error _ => isFalse (by simp)
  | .ok a, .ok b => decidable_of_iff (a = b) (by simp)

/-- A resolved media stream; `sid` is the value of `stream.id()`, the
transport-assigned key put into the outgoing stream descriptor. -/
structure StreamV where
  sid : String
deriving DecidableEq

/-- Outcome of a `Promise<Stream>`. -/
abbrev StreamP := Except Err StreamV

/-- The `RTCDataChannelInit` options record (the fields used by the
library; absent fields are `none`). -/
structure RTCDataChannelInit where
  ordered : Option Bool := none
  maxRetransmits : Option Nat := none
  protocol : Option String := none
deriving DecidableEq

/-- JavaScript record assignment `r[k] = v`: replace in place when the key
exists, append otherwise. -/
def recSet (r : List (String × T)) (k : String) (v : T) : List (String × T) :=
  match r with
  | [] => [(k, v)]
  | (k', v') :: rest => if k' = k then (k', v) :: rest else (k', v') :: recSet rest k v

/-- Model of the merge `Object.assign` of two records into a fresh one
(also the spread syntax): fold the assignments of `b` over `a`, so `b`
overrides `a` on shared keys and fresh keys of `b` are appended. -/
def jsAssign (a b : List (String × T)) : List (String × T) :=
  b.foldl (fun acc kv => recSet acc kv.1 kv.2) a

/-- Model of `Promise.all`, denotationally: the list of outcomes collapses to the
first rejection, or to the list of fulfilled values. -/
def promiseAll : List (Except Err a) → Except Err (List a)
  | [] => .ok []
  | .error e :: _ => .error e
  | .ok v :: rest => (promiseAll rest).map (fun l => v :: l)

/-- One observable side effect of the connect protocol: a call on the
underlying `PeerConnection`, or the publication of the local channel
descriptor to the `ChannelCollection` (`setLocal`). -/
inductive Call
  | addStream (sid : String)
  | addDataChannel (name : String) (opts : RTCDataChannelInit)
  | setLocalChannels (desc : List (String × RTCDataChannelInit))
  | connect
deriving DecidableEq

/-- The state of a `RemotePeer` that the connect protocol and the private
resource mutators read and write.

* `options_auto_connect` is `options.auto_connect` (`none` when the option
  is absent, mirroring `undefined`).
* `local_streams` / `local_channels` are `this.local.streams` and
  `this.local.channels`, the shared declarations of the `LocalPeer`.
* `private_streams` / `private_channels` are the per-peer declarations.
* `streams_desc` / `channels_desc` are the outgoing descriptors.
* `chan_coll_local` is the descriptor last published through
  `channel_collection.setLocal` (`none` before the first publication).
* `connect_p` caches the outcome of the promise stored in
  `this.connect_p` (`none` while the field is still `null`). -/
structure RemotePeerSt where
  options_auto_connect : Option Bool
  local_streams : List (String × StreamP)
  local_channels : List (String × RTCDataChannelInit)
  private_streams : List (String × StreamP)
  private_channels : List (String × RTCDataChannelInit)
  streams_desc : List (String × String)
  channels_desc : List (String × RTCDataChannelInit)
  chan_coll_local : Option (List (String × RTCDataChannelInit))
  connect_p : Option (Except Err Unit)
deriving DecidableEq

namespace RemotePeer

/-- Constant `Peer.DEFAULT_STREAM`.  Modelled from the spec: `peer.ts` is not among
the given sources; the jsdoc of `RemotePeer.stream` documents the default
name as `stream`. -/
def DEFAULT_STREAM : String := "stream"

/-- Constant `Peer.DEFAULT_CHANNEL`.  Modelled from the spec: `peer.ts` is not among
the given sources; the jsdoc of `RemotePeer.channel` documents the default
name as `data`. -/
def DEFAULT_CHANNEL : String := "data"

/-- The body of `RemotePeer.connect` in `remote_peer.ts`, run when
`this.connect_p == null`:
merge shared and private stream declarations, await all of them
(`Promise.all`); on success add each stream to the peer connection and
record its id in `streams_desc`, then create each merged data channel and
record its options in `channels_desc`, publish `channels_desc` via
`channel_collection.setLocal`, and finally call
`peer_connection.connect()`, whose outcome (`pcOut`) the returned promise
adopts.  On a failed stream promise the body performs no calls and the
outcome is that rejection. -/
def connectBody (pcOut : Except Err Unit) (s : RemotePeerSt) :
    RemotePeerSt × Except Err Unit × List Call :=
  let merged := jsAssign s.local_streams s.private_streams
  let stream_promises := merged.map (fun np => np.2.map (fun v => (np.1, v)))
  match promiseAll stream_promises with
  | .error e => (s, .error e, [])
  | .ok streams =>
    let s1 := streams.foldl
      (fun acc nv => { acc with streams_desc := recSet acc.streams_desc nv.1 nv.2.sid }) s
    let log1 := streams.map (fun nv => Call.addStream nv.2.sid)
    let chans := jsAssign s.local_channels s.private_channels
    let s2 := chans.foldl
      (fun acc no => { acc with channels_desc := recSet acc.channels_desc no.1 no.2 }) s1
    let log2 := chans.map (fun no => Call.addDataChannel no.1 no.2)
    let s3 := { s2 with chan_coll_local := some s2.channels_desc }
    (s3, pcOut, log1 ++ log2 ++ [Call.setLocalChannels s2.channels_desc, Call.connect])

/-- Method `RemotePeer.connect` in `remote_peer.ts`: when `this.connect_p` is
already set, return that promise (no side effects); otherwise run the body
once and cache its promise in `this.connect_p`.  Returns the new state,
the outcome of the returned promise, and the log of transport calls made
by this invocation. -/
def connect (pcOut : Except Err Unit) (s : RemotePeerSt) :
    RemotePeerSt × Except Err Unit × List Call :=
  match s.connect_p with
  | some out => (s, out, [])
  | none =>
    let r := connectBody pcOut s
    ({ r.1 with connect_p := some r.2.1 }, r.2.1, r.2.2)

/-- The three shapes accepted by `RemotePeer.addStream` for its stream
argument: a promise of a stream, an actual stream, or a configuration
passed to `Stream.createStream`. -/
inductive StreamArg
  | promise (p : StreamP)
  | stream (v : StreamV)
  | config (c : String)
deriving DecidableEq

/-- Method `RemotePeer.addStream` in `remote_peer.ts`.  `createStream` denotes the
external `Stream.createStream`; `name = none` models the omitted first
argument (then `Peer.DEFAULT_STREAM` is used).  Unless
`options.auto_connect === false` the call returns an immediately rejected
promise before touching any state; otherwise the stream argument is
normalised to a promise, stored under `private_streams[name]` and
returned. -/
def addStream (createStream : String → StreamP) (s : RemotePeerSt)
    (name : Option String) (obj : StreamArg) : RemotePeerSt × StreamP :=
  if ¬ s.options_auto_connect = some false then
    (s, .error .usage_add_streams)
  else
    let nm := name.getD DEFAULT_STREAM
    let p := match obj with
      | .promise p => p
      | .stream v => .ok v
      | .config c => createStream c
    ({ s with private_streams := recSet s.private_streams nm p }, p)

/-- Method `RemotePeer.addDataChannel` in `remote_peer.ts`.  Unless
`options.auto_connect === false` the call returns an immediately rejected
promise before touching any state; otherwise the options default to
`ordered: true` when absent, are stored under `private_channels[name]`
(default name when omitted), and the call returns `this.channel(name)`,
the collection entry for that name, which we record by its name. -/
def addDataChannel (s : RemotePeerSt) (name : Option String)
    (desc : Option RTCDataChannelInit) : RemotePeerSt × Except Err String :=
  if ¬ s.options_auto_connect = some false then
    (s, .error .usage_add_channels)
  else
    let nm := name.getD DEFAULT_CHANNEL
    let d := desc.getD { ordered := some true }
    ({ s with private_channels := recSet s.private_channels nm d }, .ok nm)

/-- The state a freshly constructed `RemotePeer` starts from, before the
tail of the constructor decides whether to call `connect()`. -/
def initState (auto : Option Bool) (ls : List (String × StreamP))
    (lc : List (String × RTCDataChannelInit)) : RemotePeerSt :=
  { options_auto_connect := auto
    local_streams := ls
    local_channels := lc
    private_streams := []
    private_channels := []
    streams_desc := []
    channels_desc := []
    chan_coll_local := none
    connect_p := none }

/-- The guard at the end of the `remote_peer.ts` constructor:
`this.options.auto_connect == null || this.options.auto_connect`, i.e.
connect automatically when the option is absent or truthy. -/
def constructorConnects (auto : Option Bool) : Bool :=
  match auto with
  | none => true
  | some b => b

/-- The `remote_peer.ts` constructor, restricted to the state of this
embedding: build the initial state and, when `constructorConnects` holds,
run `connect()`.  Returns the resulting state and the transport calls made
during construction. -/
def new (pcOut : Except Err Unit) (ls : List (String × StreamP))
    (lc : List (String × RTCDataChannelInit)) (auto : Option Bool) :
    RemotePeerSt × List Call :=
  let s0 := initState auto ls lc
  if constructorConnects auto then
    let r := connect pcOut s0
    (r.1, r.2.2)
  else
    (s0, [])

end RemotePeer

namespace RemotePeerCoffee

/-!
The legacy CoffeeScript implementation `src/remote_peer.coffee`.  It has
no `addStream` / `addDataChannel` mutators and therefore no private
declarations; its `connect` iterates over `@local.streams` and
`@local.channels` directly.  We reuse `RemotePeerSt`, whose
`private_streams` / `private_channels` fields the coffee class simply
never populates or reads.
-/

/-- The body of `connect` in `remote_peer.coffee`: await the promises of
`@local.streams`; on success add each stream and record its id in
`@streams_desc`, create each channel of `@local.channels` recording its
options in `@channels_desc`, publish via `setLocal`, then call
`@peer_connection.connect()`. -/
def connectBody (pcOut : Except Err Unit) (s : RemotePeerSt) :
    RemotePeerSt × Except Err Unit × List Call :=
  let stream_promises := s.local_streams.map (fun np => np.2.map (fun v => (np.1, v)))
  match promiseAll stream_promises with
  | .error e => (s, .error e, [])
  | .ok streams =>
    let s1 := streams.foldl
      (fun acc nv => { acc with streams_desc := recSet acc.streams_desc nv.1 nv.2.sid }) s
    let log1 := streams.map (fun nv => Call.addStream nv.2.sid)
    let chans := s.local_channels
    let s2 := chans.foldl
      (fun acc no => { acc with channels_desc := recSet acc.channels_desc no.1 no.2 }) s1
    let log2 := chans.map (fun no => Call.addDataChannel no.1 no.2)
    let s3 := { s2 with chan_coll_local := some s2.channels_desc }
    (s3, pcOut, log1 ++ log2 ++ [Call.setLocalChannels s2.channels_desc, Call.connect])

/-- Method `connect` in `remote_peer.coffee`: same caching of `@connect_p` as the
TypeScript version, around the coffee body. -/
def connect (pcOut : Except Err Unit) (s : RemotePeerSt) :
    RemotePeerSt × Except Err Unit × List Call :=
  match s.connect_p with
  | some out => (s, out, [])
  | none =>
    let r := connectBody pcOut s
    ({ r.1 with connect_p := some r.2.1 }, r.2.1, r.2.2)

/-- The guard at the end of the `remote_peer.coffee` constructor:
`if not @options.auto_connect? or not @options.auto_connect` — connect
automatically when the option is absent or FALSY. -/
def constructorConnects (auto : Option Bool) : Bool :=
  match auto with
  | none => true
  | some b => !b

end RemotePeerCoffee

/-!
The Room state machine (`src/room.ts`).

`Room` keeps `state : RoomState` (initially `idle`), a cached join promise
`join_p` and a peer map.  `connect()` sets the state to `connecting` and
starts `signaling.connect()` only on the first call, but EVERY call
attaches a fresh `.then(() => setState connected).catch(err => setState
failed; throw err)` continuation to the cached `join_p`.  We model the
room as a deterministic transition system:

* `join_p` is `noneP` (field still `null`), `pending`, or
  `settled res` once the signaling connect promise settled with `res`;
* `pendingConts` counts continuations attached while `join_p` was pending
  (they all fire when it settles);
* `schedConts` counts continuations attached by `connect()` calls made
  after `join_p` settled; each fires later as its own microtask
  (`contFire`).
-/

/-- The `RoomState` type of `room.ts`. -/
inductive RoomState
  | idle
  | connecting
  | connected
  | closed
  | failed
deriving DecidableEq

/-- Status of the cached `join_p` promise. -/
inductive JoinP
  | noneP
  | pending
  | settled (res : Except Err Unit)
deriving DecidableEq

/-- The observable state of a `Room`.  `peers` holds the keys of the
`peers` record (the per-peer orchestrators themselves are outside this
model). -/
structure RoomSt where
  state : RoomState
  join_p : JoinP
  pendingConts : Nat
  schedConts : Nat
  peers : List String
deriving DecidableEq

/-- Events emitted by the room (`this.emit(...)`). -/
inductive RoomEmit
  | state_changed (s : RoomState)
  | closedE
  | peer_joined (id : String)
  | peer_left (id : String)
  | peers_changed
deriving DecidableEq

/-- External events driving the room:
a `connect()` call by the application, the settlement of the signaling
connect promise, the firing of one continuation that was attached after
settlement, the signaling `closed` event, and the signaling
`peer_joined` / peer `left` events. -/
inductive RoomEvent
  | connectCall
  | joinSettled (res : Except Err Unit)
  | contFire
  | sigClosed
  | peerJoined (id : String)
  | peerLeft (id : String)
deriving DecidableEq

namespace Room

/-- Method `Room.setState`: store the state and emit `state_changed`. -/
def setState (s : RoomSt) (st : RoomState) : RoomSt × List RoomEmit :=
  ({ s with state := st }, [.state_changed st])

/-- The continuation `connect()` attaches to `join_p`:
`.then(() => setState connected)` on fulfilment,
`.catch(err => setState failed; throw err)` on rejection.  Returns the new
room state, the emits, and the outcome of the promise handed back to the
caller of `connect()` (the error is re-thrown unchanged). -/
def connectCont (s : RoomSt) (res : Except Err Unit) :
    RoomSt × List RoomEmit × Except Err Unit :=
  match res with
  | .ok _ =>
    let t := setState s .connected
    (t.1, t.2, .ok ())
  | .error e =>
    let t := setState s .failed
    (t.1, t.2, .error e)

end Room

/-- One step of the room transition system. -/
def roomStep (s : RoomSt) : RoomEvent → RoomSt × List RoomEmit
  | .connectCall =>
    match s.join_p with
    | .noneP =>
      Room.setState { s with join_p := .pending, pendingConts := s.pendingConts + 1 }
        .connecting
    | .pending => ({ s with pendingConts := s.pendingConts + 1 }, [])
    | .settled _ => ({ s with schedConts := s.schedConts + 1 }, [])
  | .joinSettled res =>
    match s.join_p with
    | .pending =>
      let s1 := { s with join_p := .settled res, pendingConts := 0 }
      if s.pendingConts = 0 then (s1, [])
      else
        let t := Room.connectCont s1 res
        (t.1, t.2.1)
    | _ => (s, [])
  | .contFire =>
    match s.join_p, s.schedConts with
    | .settled res, n + 1 =>
      let t := Room.connectCont { s with schedConts := n } res
      (t.1, t.2.1)
    | _, _ => (s, [])
  | .sigClosed =>
    let s1 := { s with peers := [] }
    if s.state = .connected then
      let t := Room.setState s1 .closed
      (t.1, .closedE :: t.2)
    else
      (s1, [.closedE])
  | .peerJoined id =>
    ({ s with peers := if s.peers.contains id then s.peers else s.peers ++ [id] },
      [.peer_joined id, .peers_changed])
  | .peerLeft id =>
    ({ s with peers := s.peers.erase id }, [.peer_left id, .peers_changed])

/-- Run a trace of events through the room, keeping the state. -/
def roomRun (s : RoomSt) (tr : List RoomEvent) : RoomSt :=
  tr.foldl (fun a e => (roomStep a e).1) s

/-- The state of a freshly constructed room: `state = idle`, no join
promise, empty peer map. -/
def roomInit : RoomSt :=
  { state := .idle, join_p := .noneP, pendingConts := 0, schedConts := 0, peers := [] }

/-- Invariant tying the room state to the join promise: `failed` only
after the join promise was rejected, `connected` / `closed` only after it
was fulfilled. -/
def RoomInv (s : RoomSt) : Prop :=
  (s.state = .failed → ∃ e, s.join_p = .settled (.error e)) ∧
  ((s.state = .connected ∨ s.state = .closed) → s.join_p = .settled (.ok ()))

/-! ## Helper lemmas -/

lemma lookup_recSet_self {T : Type} (r : List (String × T)) (k : String) (v : T) :
    (recSet r k v).lookup k = some v := by
  induction r with
  | nil => simp [recSet, List.lookup]
  | cons kv rest ih =>
    obtain ⟨k', v'⟩ := kv
    by_cases h : k' = k
    · subst h
      simp [recSet, List.lookup]
    · have hb : (k == k') = false := by
        simp
        exact fun he => h he.symm
      simp [recSet, h, List.lookup, hb, ih]

lemma recSet_append_of_lookup_none {T : Type} (r : List (String × T)) (k : String) (v : T)
    (h : r.lookup k = none) : recSet r k v = r ++ [(k, v)] := by
  induction r with
  | nil => simp [recSet]
  | cons kv rest ih =>
    obtain ⟨k', v'⟩ := kv
    by_cases hk : k' = k
    · subst hk
      simp [List.lookup] at h
    · have hb : (k == k') = false := by
        simp
        exact fun he => hk he.symm
      simp only [List.lookup, hb] at h
      simp [recSet, hk, ih h]

lemma lookup_append_of_left_none {T : Type} (a b : List (String × T)) (k : String)
    (h : a.lookup k = none) : (a ++ b).lookup k = b.lookup k := by
  induction a with
  | nil => simp
  | cons kv rest ih =>
    obtain ⟨k', v'⟩ := kv
    by_cases hk : k' = k
    · subst hk
      simp [List.lookup] at h
    · have hb : (k == k') = false := by
        simp
        exact fun he => hk he.symm
      simp only [List.cons_append, List.lookup, hb] at h ⊢
      exact ih h

/-- Folding JavaScript record assignments over keys that are all fresh for
the accumulator and mutually distinct just appends the entries in order. -/
lemma foldl_recSet_of_fresh {a T : Type} (f : String × a → T) :
    ∀ (l : List (String × a)) (acc : List (String × T)),
    (∀ kv ∈ l, acc.lookup kv.1 = none) → (l.map Prod.fst).Nodup →
    l.foldl (fun r kv => recSet r kv.1 (f kv)) acc
      = acc ++ l.map (fun kv => (kv.1, f kv))
  | [], acc, _, _ => by simp
  | kv :: rest, acc, hfresh, hnd => by
    have hstep : recSet acc kv.1 (f kv) = acc ++ [(kv.1, f kv)] :=
      recSet_append_of_lookup_none _ _ _ (hfresh kv (by simp))
    have hnd' : (rest.map Prod.fst).Nodup := (List.nodup_cons.mp hnd).2
    have hnotin : kv.1 ∉ rest.map Prod.fst := (List.nodup_cons.mp hnd).1
    have hfresh' : ∀ kv' ∈ rest, (acc ++ [(kv.1, f kv)]).lookup kv'.1 = none := by
      intro kv' hmem
      have hne : ¬ kv'.1 = kv.1 := by
        intro he
        exact hnotin (he ▸ List.mem_map_of_mem Prod.fst hmem)
      have hb : (kv'.1 == kv.1) = false := by simp [hne]
      rw [lookup_append_of_left_none _ _ _ (hfresh kv' (by simp [hmem]))]
      simp [List.lookup, hb]
    calc (kv :: rest).foldl (fun r kv => recSet r kv.1 (f kv)) acc
        = rest.foldl (fun r kv => recSet r kv.1 (f kv)) (acc ++ [(kv.1, f kv)]) := by
          rw [List.foldl_cons, hstep]
      _ = (acc ++ [(kv.1, f kv)]) ++ rest.map (fun kv => (kv.1, f kv)) :=
          foldl_recSet_of_fresh f rest _ hfresh' hnd'
      _ = acc ++ (kv :: rest).map (fun kv => (kv.1, f kv)) := by simp

lemma promiseAll_map_ok {a : Type} (l : List a) :
    promiseAll (l.map Except.ok) = Except.ok l := by
  induction l with
  | nil => rfl
  | cons x xs ih => simp [promiseAll, ih, Except.map]

lemma connect_p_isSome_after_connect (pcOut : Except Err Unit) (s : RemotePeerSt) :
    (RemotePeer.connect pcOut s).1.connect_p.isSome := by
  cases h : s.connect_p <;> simp [RemotePeer.connect, h]

/-- The structure-level fold of the stream phase of `connectBody` only
touches the `streams_desc` field. -/
lemma foldl_update_streams_desc (l : List (String × StreamV)) (s : RemotePeerSt) :
    l.foldl (fun acc nv => { acc with streams_desc := recSet acc.streams_desc nv.1 nv.2.sid }) s
      = { s with streams_desc :=
            l.foldl (fun r nv => recSet r nv.1 nv.2.sid) s.streams_desc } := by
  induction l generalizing s with
  | nil => rfl
  | cons nv rest ih => rw [List.foldl_cons, List.foldl_cons, ih]

/-- The structure-level fold of the channel phase of `connectBody` only
touches the `channels_desc` field. -/
lemma foldl_update_channels_desc (l : List (String × RTCDataChannelInit)) (s : RemotePeerSt) :
    l.foldl (fun acc no => { acc with channels_desc := recSet acc.channels_desc no.1 no.2 }) s
      = { s with channels_desc :=
            l.foldl (fun r no => recSet r no.1 no.2) s.channels_desc } := by
  induction l generalizing s with
  | nil => rfl
  | cons no rest ih => rw [List.foldl_cons, List.foldl_cons, ih]

/-- Any predicate preserved by single room steps is preserved by whole
traces. -/
lemma roomRun_pres {P : RoomSt → Prop} (hstep : ∀ s e, P s → P (roomStep s e).1) :
    ∀ (tr : List RoomEvent) (s : RoomSt), P s → P (roomRun s tr)
  | [], _, hs => hs
  | e :: tr, s, hs => roomRun_pres hstep tr _ (hstep s e hs)

lemma roomRun_append (s : RoomSt) (tr1 tr2 : List RoomEvent) :
    roomRun s (tr1 ++ tr2) = roomRun (roomRun s tr1) tr2 := by
  simp [roomRun, List.foldl_append]

/-- The invariant `RoomInv` is preserved by every room step. -/
lemma roomStep_inv (s : RoomSt) (e : RoomEvent) (h : RoomInv s) :
    RoomInv (roomStep s e).1 := by
  obtain ⟨st, jp, pc, sc, ps⟩ := s
  obtain ⟨h1, h2⟩ := h
  cases e with
  | connectCall =>
    cases jp with
    | noneP =>
      exact ⟨fun h' => by simp [roomStep, Room.setState] at h',
        fun h' => by simp [roomStep, Room.setState] at h'⟩
    | pending => exact ⟨h1, h2⟩
    | settled res => exact ⟨h1, h2⟩
  | joinSettled res =>
    cases jp with
    | noneP => exact ⟨h1, h2⟩
    | settled r => exact ⟨h1, h2⟩
    | pending =>
      by_cases hpc : pc = 0
      · subst hpc
        refine ⟨fun h' => absurd (h1 h') (by simp), fun h' => absurd (h2 h') (by simp)⟩
      · have hif : (if pc = 0 then True else False) = False := by simp [hpc]
        cases res with
        | ok u =>
          refine ⟨fun h' => ?_, fun _ => by simp [roomStep, hpc, Room.connectCont, Room.setState]⟩
          · exfalso
            revert h'
            simp [roomStep, hpc, Room.connectCont, Room.setState]
        | error err =>
          refine ⟨fun _ => ⟨err, by simp [roomStep, hpc, Room.connectCont, Room.setState]⟩,
            fun h' => ?_⟩
          · exfalso
            revert h'
            simp [roomStep, hpc, Room.connectCont, Room.setState]
  | contFire =>
    cases jp with
    | noneP => exact ⟨h1, h2⟩
    | pending => exact ⟨h1, h2⟩
    | settled res =>
      cases sc with
      | zero => exact ⟨h1, h2⟩
      | succ n =>
        cases res with
        | ok u =>
          refine ⟨fun h' => ?_, fun _ => rfl⟩
          · exfalso
            revert h'
            simp [roomStep, Room.connectCont, Room.setState]
        | error err =>
          refine ⟨fun _ => ⟨err, rfl⟩, fun h' => ?_⟩
          · exfalso
            revert h'
            simp [roomStep, Room.connectCont, Room.setState]
  | sigClosed =>
    by_cases hst : st = RoomState.connected
    · subst hst
      have hjp : jp = .settled (.ok ()) := h2 (Or.inl rfl)
      subst hjp
      refine ⟨fun h' => ?_, fun _ => rfl⟩
      · exfalso
        revert h'
        simp [roomStep, Room.setState]
    · have hred : (roomStep ⟨st, jp, pc, sc, ps⟩ .sigClosed).1
          = ⟨st, jp, pc, sc, []⟩ := by
        simp [roomStep, hst]
      rw [hred]
      exact ⟨h1, h2⟩
  | peerJoined id => exact ⟨h1, h2⟩
  | peerLeft id => exact ⟨h1, h2⟩

/-- Under the invariant, the `failed` state is preserved by every room
step: the only continuations left can only re-set `failed`. -/
lemma roomStep_failed (s : RoomSt) (e : RoomEvent) (hinv : RoomInv s)
    (hst : s.state = .failed) : (roomStep s e).1.state = .failed := by
  obtain ⟨st, jp, pc, sc, ps⟩ := s
  obtain ⟨h1, h2⟩ := hinv
  simp only at hst
  subst hst
  obtain ⟨err, hjp⟩ := h1 rfl
  simp only at hjp
  subst hjp
  cases e with
  | connectCall => rfl
  | joinSettled res => rfl
  | contFire =>
    cases sc with
    | zero => rfl
    | succ n => simp [roomStep, Room.connectCont, Room.setState]
  | sigClosed => simp [roomStep]
  | peerJoined id => rfl
  | peerLeft id => rfl

/-- Under the invariant, a room in state `closed` or `connected` stays in
one of these two states: every continuation that can still fire stems from
a fulfilled join promise and re-sets `connected`. -/
lemma roomStep_closed_connected (s : RoomSt) (e : RoomEvent) (hinv : RoomInv s)
    (hst : s.state = .closed ∨ s.state = .connected) :
    (roomStep s e).1.state = .closed ∨ (roomStep s e).1.state = .connected := by
  obtain ⟨st, jp, pc, sc, ps⟩ := s
  obtain ⟨h1, h2⟩ := hinv
  have hjp : jp = .settled (.ok ()) := by
    rcases hst with hst | hst <;> simp only at hst <;> subst hst
    · exact h2 (Or.inr rfl)
    · exact h2 (Or.inl rfl)
  subst hjp
  cases e with
  | connectCall => exact hst
  | joinSettled res => exact hst
  | contFire =>
    cases sc with
    | zero => exact hst
    | succ n =>
      right
      simp [roomStep, Room.connectCont, Room.setState]
  | sigClosed =>
    rcases hst with hst | hst <;> simp only at hst <;> subst hst
    · left
      simp [roomStep]
    · left
      simp [roomStep, Room.setState]
  | peerJoined id => exact hst
  | peerLeft id => exact hst

/-! ## Claims -/

/-- Claim C1: `RemotePeer.connect()` is single-flight — after any call to
`connect`, a further call returns the same outcome, performs no transport
calls, and leaves the state unchanged, so the side-effecting sequence runs
at most once per peer session. -/
theorem connect_single_flight (pcOut : Except Err Unit) (s : RemotePeerSt) :
    RemotePeer.connect pcOut (RemotePeer.connect pcOut s).1
      = ((RemotePeer.connect pcOut s).1, (RemotePeer.connect pcOut s).2.1, []) := by
  cases h : s.connect_p with
  | some out => simp [RemotePeer.connect, h]
  | none => simp [RemotePeer.connect, h]

/-- Claim C4: when a stream name is declared both in the shared local
resources and in the peer-private resources, `connect()` uses the private
one — with local streams containing `a ↦ streamA` and private streams
`a ↦ streamB`, the protocol adds `streamB` and records its key under `a`
in the local stream descriptor. -/
theorem connect_private_stream_overrides_shared (pcOut : Except Err Unit) (sA sB : StreamV) :
    RemotePeer.connect pcOut
      { RemotePeer.initState (some false) [("a", .ok sA)] [] with
          private_streams := [("a", .ok sB)] }
      = ({ RemotePeer.initState (some false) [("a", .ok sA)] [] with
            private_streams := [("a", .ok sB)],
            streams_desc := [("a", sB.sid)],
            chan_coll_local := some [],
            connect_p := some pcOut },
          pcOut,
          [Call.addStream sB.sid, Call.setLocalChannels [], Call.connect]) := by
  simp [RemotePeer.connect, RemotePeer.connectBody, RemotePeer.initState,
    jsAssign, recSet, promiseAll, Except.map]

/-- Claim C5: while `auto_connect` is not strictly equal to `false`, both
`addStream` and `addDataChannel` return an immediately rejected promise
and leave the whole peer state (in particular `private_streams` and
`private_channels`) untouched. -/
theorem mutators_reject_unless_auto_connect_false
    (cs : String → StreamP) (s : RemotePeerSt) (name1 : Option String)
    (obj : RemotePeer.StreamArg) (name2 : Option String)
    (desc : Option RTCDataChannelInit)
    (h : ¬ s.options_auto_connect = some false) :
    RemotePeer.addStream cs s name1 obj = (s, .error .usage_add_streams) ∧
    RemotePeer.addDataChannel s name2 desc = (s, .error .usage_add_channels) := by
  constructor <;> simp [RemotePeer.addStream, RemotePeer.addDataChannel, h]

/-- Witness for C5 at a concrete peer whose options omit `auto_connect`. -/
theorem mutators_reject_unless_auto_connect_false_witness :
    RemotePeer.addStream (fun _ => Except.error (.stream_failed 0))
        (RemotePeer.initState none [] []) (some "cam")
        (.stream ⟨"id0"⟩)
      = (RemotePeer.initState none [] [], .error .usage_add_streams) ∧
    RemotePeer.addDataChannel (RemotePeer.initState none [] []) (some "chat") none
      = (RemotePeer.initState none [] [], .error .usage_add_channels) :=
  mutators_reject_unless_auto_connect_false _ _ _ _ _ _ (by decide)

/-- Claim C6: the constructor triggers `connect()` automatically when
`auto_connect` is `true` or absent (afterwards `connect_p` is set), and
does not trigger it when `auto_connect` is explicitly `false` (the state
is exactly the initial state and no transport call was made). -/
theorem constructor_auto_connect (pcOut : Except Err Unit)
    (ls : List (String × StreamP)) (lc : List (String × RTCDataChannelInit)) :
    (RemotePeer.new pcOut ls lc none).1.connect_p.isSome = true ∧
    (RemotePeer.new pcOut ls lc (some true)).1.connect_p.isSome = true ∧
    RemotePeer.new pcOut ls lc (some false)
      = (RemotePeer.initState (some false) ls lc, []) := by
    refine ⟨?_, ?_, rfl⟩ <;>
      simpa [RemotePeer.new, RemotePeer.constructorConnects] using
        connect_p_isSome_after_connect pcOut _

/-- Claim C9: on a peer with `auto_connect = false`, `addDataChannel` with
a name but no options registers exactly the options `ordered: true` under
that name in `private_channels`. -/
theorem add_data_channel_default_options (s : RemotePeerSt)
    (h : s.options_auto_connect = some false) :
    ((RemotePeer.addDataChannel s (some "chat") none).1.private_channels).lookup "chat"
      = some { ordered := some true, maxRetransmits := none, protocol := none } := by
  simp [RemotePeer.addDataChannel, h, lookup_recSet_self]

/-- Witness for C9 at a concrete peer constructed with
`auto_connect = false`. -/
theorem add_data_channel_default_options_witness :
    ((RemotePeer.addDataChannel (RemotePeer.initState (some false) [] [])
        (some "chat") none).1.private_channels).lookup "chat"
      = some { ordered := some true, maxRetransmits := none, protocol := none } :=
  add_data_channel_default_options (RemotePeer.initState (some false) [] []) rfl

/-- Claim C8: the signaling `closed` handler of `Room` clears the peer
map, emits `closed` (followed by `state_changed` exactly when the state
moves), and sets the state to `closed` iff the current state is
`connected`; in every other state the handler changes nothing but the
peer map. -/
theorem room_sig_closed_handler (s : RoomSt) :
    (roomStep s .sigClosed).1.peers = [] ∧
    (roomStep s .sigClosed).1.state
      = (if s.state = .connected then .closed else s.state) ∧
    (roomStep s .sigClosed).2
      = (if s.state = .connected then [.closedE, .state_changed .closed] else [.closedE]) ∧
    ((roomStep s .sigClosed).1.state = .closed ↔ (s.state = .connected ∨ s.state = .closed)) ∧
    (¬ s.state = .connected →
      (roomStep s .sigClosed).1 = { s with peers := ([] : List String) }) := by
  obtain ⟨st, jp, pc, sc, ps⟩ := s
  by_cases h : st = RoomState.connected
  · subst h
    simp [roomStep, Room.setState]
  · simp [roomStep, Room.setState, h]

/-- Claim C7: `Room.connect()` from the initial `idle` state moves the
state to `connecting` and starts the signaling connect (`join_p` becomes
pending); when that promise fulfils the state becomes `connected`, when it
rejects the state becomes `failed`, and the promise returned to the caller
settles with the same outcome (the failure is re-raised unchanged). -/
theorem room_connect_moves_states (e : Err) :
    roomInit.state = .idle ∧
    (roomRun roomInit [.connectCall]).state = .connecting ∧
    (roomRun roomInit [.connectCall]).join_p = .pending ∧
    (roomRun roomInit [.connectCall, .joinSettled (.ok ())]).state = .connected ∧
    (roomRun roomInit [.connectCall, .joinSettled (.error e)]).state = .failed ∧
    (Room.connectCont (roomRun roomInit [.connectCall]) (.ok ())).2.2 = .ok () ∧
    (Room.connectCont (roomRun roomInit [.connectCall]) (.error e)).2.2 = .error e := by
  exact ⟨rfl, rfl, rfl, rfl, rfl, rfl, rfl⟩

/-- Claim C2 counterexample: the room states `closed` and `failed` are NOT
terminal as claimed.  After a successful connect and a remote-initiated
close (state `closed`), a further `Room.connect()` call attaches a new
continuation to the already fulfilled `join_p`, and when it fires the
state moves back to `connected`. -/
theorem room_closed_not_terminal_counterexample :
    (roomRun roomInit [.connectCall, .joinSettled (.ok ()), .sigClosed]).state
      = .closed ∧
    (roomRun roomInit [.connectCall, .joinSettled (.ok ()), .sigClosed,
        .connectCall, .contFire]).state
      = .connected := by
  decide

/-- Claim C2 as amended: along every trace from the initial room state,
once the state is `closed` or `failed` it never returns to `connecting`
(or `idle`); `failed` is in fact terminal, and from `closed` the state can
only remain `closed` or be re-set to `connected` by the continuation of a
further `Room.connect()` call on the fulfilled join promise — the
transition exhibited by the counterexample. -/
theorem room_terminal_states_amended (tr1 tr2 : List RoomEvent)
    (h : (roomRun roomInit tr1).state = .closed ∨ (roomRun roomInit tr1).state = .failed) :
    (roomRun (roomRun roomInit tr1) tr2).state ≠ .connecting ∧
    (roomRun (roomRun roomInit tr1) tr2).state ≠ .idle ∧
    ((roomRun roomInit tr1).state = .failed →
      (roomRun (roomRun roomInit tr1) tr2).state = .failed) ∧
    ((roomRun roomInit tr1).state = .closed →
      (roomRun (roomRun roomInit tr1) tr2).state = .closed ∨
        (roomRun (roomRun roomInit tr1) tr2).state = .connected) := by
  have hinv0 : RoomInv roomInit :=
    ⟨fun h' => absurd h' (by decide), fun h' => absurd h' (by decide)⟩
  have hinv : RoomInv (roomRun roomInit tr1) :=
    roomRun_pres roomStep_inv tr1 roomInit hinv0
  rcases h with hc | hf
  · have hrun := roomRun_pres
      (P := fun s => RoomInv s ∧ (s.state = .closed ∨ s.state = .connected))
      (fun s e hp => ⟨roomStep_inv s e hp.1, roomStep_closed_connected s e hp.1 hp.2⟩)
      tr2 _ ⟨hinv, Or.inl hc⟩
    refine ⟨?_, ?_, ?_, fun _ => hrun.2⟩
    · rcases hrun.2 with h' | h' <;> simp [h']
    · rcases hrun.2 with h' | h' <;> simp [h']
    · intro hf'
      rw [hc] at hf'
      exact absurd hf' (by decide)
  · have hrun := roomRun_pres
      (P := fun s => RoomInv s ∧ s.state = .failed)
      (fun s e hp => ⟨roomStep_inv s e hp.1, roomStep_failed s e hp.1 hp.2⟩)
      tr2 _ ⟨hinv, hf⟩
    refine ⟨by simp [hrun.2], by simp [hrun.2], fun _ => hrun.2, ?_⟩
    intro hcl
    rw [hf] at hcl
    exact absurd hcl (by decide)

/-- Witness for the amended C2: a room whose join failed stays `failed`
through a further connect call, a fired continuation and a signaling
close. -/
theorem room_terminal_states_amended_witness :
    (roomRun (roomRun roomInit [.connectCall, .joinSettled (.error (.join_failed 0))])
        [.connectCall, .contFire, .sigClosed]).state ≠ .connecting ∧
    (roomRun (roomRun roomInit [.connectCall, .joinSettled (.error (.join_failed 0))])
        [.connectCall, .contFire, .sigClosed]).state ≠ .idle ∧
    ((roomRun roomInit [.connectCall, .joinSettled (.error (.join_failed 0))]).state = .failed →
      (roomRun (roomRun roomInit [.connectCall, .joinSettled (.error (.join_failed 0))])
          [.connectCall, .contFire, .sigClosed]).state = .failed) ∧
    ((roomRun roomInit [.connectCall, .joinSettled (.error (.join_failed 0))]).state = .closed →
      (roomRun (roomRun roomInit [.connectCall, .joinSettled (.error (.join_failed 0))])
          [.connectCall, .contFire, .sigClosed]).state = .closed ∨
        (roomRun (roomRun roomInit [.connectCall, .joinSettled (.error (.join_failed 0))])
            [.connectCall, .contFire, .sigClosed]).state = .connected) :=
  room_terminal_states_amended
    [.connectCall, .joinSettled (.error (.join_failed 0))]
    [.connectCall, .contFire, .sigClosed] (by decide)

/-- Claim C3: on the first `connect()` call (no cached `connect_p`), once
all merged local stream promises fulfil, the transport receives
`addStream` for every resolved stream in declaration order while
`streams_desc` maps each name to the stream key; afterwards every merged
channel declaration leads to an `addDataChannel` call while
`channels_desc` records its options and is published through
`channel_collection.setLocal`; finally the transport `connect` is the
last call and the promise returned by `RemotePeer.connect` settles
exactly as the transport connect settles, success or failure alike. -/
theorem connect_first_call_protocol (pcOut : Except Err Unit) (s : RemotePeerSt)
    (resolved : List (String × StreamV))
    (h0 : s.connect_p = none)
    (h1 : jsAssign s.local_streams s.private_streams
        = resolved.map (fun nv => (nv.1, Except.ok nv.2)))
    (h2 : s.streams_desc = [])
    (h3 : s.channels_desc = [])
    (h4 : (resolved.map Prod.fst).Nodup)
    (h5 : ((jsAssign s.local_channels s.private_channels).map Prod.fst).Nodup) :
    RemotePeer.connect pcOut s
      = ({ s with
            streams_desc := resolved.map (fun nv => (nv.1, nv.2.sid)),
            channels_desc := jsAssign s.local_channels s.private_channels,
            chan_coll_local := some (jsAssign s.local_channels s.private_channels),
            connect_p := some pcOut },
          pcOut,
          resolved.map (fun nv => Call.addStream nv.2.sid)
            ++ (jsAssign s.local_channels s.private_channels).map
                (fun no => Call.addDataChannel no.1 no.2)
            ++ [Call.setLocalChannels (jsAssign s.local_channels s.private_channels),
                Call.connect]) := by
  obtain ⟨auto, ls, lc, prs, prc, sd, cd, ccl, cp⟩ := s
  simp only at h0 h1 h2 h3 h4 h5
  subst h0
  subst h2
  subst h3
  have hall : promiseAll ((jsAssign ls prs).map (fun np => np.2.map (fun v => (np.1, v))))
      = .ok resolved := by
    rw [h1, List.map_map]
    have hcomp : ((fun np : String × StreamP => np.2.map (fun v => (np.1, v))) ∘
        (fun nv : String × StreamV => (nv.1, Except.ok nv.2)))
        = fun nv : String × StreamV => Except.ok nv := by
      funext nv
      simp [Except.map]
    rw [hcomp]
    exact promiseAll_map_ok resolved
  simp only [RemotePeer.connect, RemotePeer.connectBody, hall]
  rw [foldl_update_streams_desc, foldl_update_channels_desc]
  simp only []
  rw [foldl_recSet_of_fresh (fun nv => nv.2.sid) resolved [] (fun kv _ => rfl) h4,
    foldl_recSet_of_fresh (fun no => no.2) (jsAssign lc prc) [] (fun kv _ => rfl) h5]
  simp

/-- Witness for C3: a concrete first connect with one shared stream, one
private stream and one shared channel. -/
theorem connect_first_call_protocol_witness :
    RemotePeer.connect (.ok ())
      { RemotePeer.initState (some false) [("a", .ok ⟨"k1"⟩)]
          [("c", { ordered := some true })] with
          private_streams := [("b", .ok ⟨"k2"⟩)] }
      = ({ RemotePeer.initState (some false) [("a", .ok ⟨"k1"⟩)]
            [("c", { ordered := some true })] with
            private_streams := [("b", .ok ⟨"k2"⟩)],
            streams_desc := [("a", "k1"), ("b", "k2")],
            channels_desc := [("c", { ordered := some true })],
            chan_coll_local := some [("c", { ordered := some true })],
            connect_p := some (.ok ()) },
          .ok (),
          [Call.addStream "k1", Call.addStream "k2",
            Call.addDataChannel "c" { ordered := some true },
            Call.setLocalChannels [("c", { ordered := some true })],
            Call.connect]) :=
  connect_first_call_protocol (.ok ())
    { RemotePeer.initState (some false) [("a", .ok ⟨"k1"⟩)]
        [("c", { ordered := some true })] with
        private_streams := [("b", .ok ⟨"k2"⟩)] }
    [("a", ⟨"k1"⟩), ("b", ⟨"k2"⟩)]
    rfl (by decide) rfl rfl (by decide) (by decide)

/-- Claim C10 counterexample: the two `RemotePeer` implementations are not
behaviorally equivalent — with `auto_connect = true` the TypeScript
constructor triggers `connect()` while the CoffeeScript constructor does
not (its guard connects exactly when the flag is absent or falsy). -/
theorem ts_coffee_not_equivalent :
    RemotePeer.constructorConnects (some true) = true ∧
    RemotePeerCoffee.constructorConnects (some true) = false := by
  decide

/-- Claim C10 as amended: the two constructors trigger `connect()` under
the same condition exactly when `auto_connect` is absent (the TypeScript
guard fires on absent-or-truthy, the CoffeeScript one on
absent-or-falsy), and the two `connect` implementations agree exactly on
peers without private declarations — the CoffeeScript class has no
private streams or channels, so it gathers only the shared local
declarations. -/
theorem ts_coffee_equivalence_amended (auto : Option Bool) (pcOut : Except Err Unit)
    (s : RemotePeerSt) (h1 : s.private_streams = []) (h2 : s.private_channels = []) :
    ((RemotePeer.constructorConnects auto = RemotePeerCoffee.constructorConnects auto) ↔
      auto = none) ∧
    RemotePeerCoffee.connect pcOut s = RemotePeer.connect pcOut s := by
  constructor
  · cases auto with
    | none => simp [RemotePeer.constructorConnects, RemotePeerCoffee.constructorConnects]
    | some b =>
      cases b <;>
        simp [RemotePeer.constructorConnects, RemotePeerCoffee.constructorConnects]
  · simp [RemotePeer.connect, RemotePeerCoffee.connect, RemotePeer.connectBody,
      RemotePeerCoffee.connectBody, jsAssign, h1, h2]

/-- Witness for the amended C10 at a concrete peer with only shared
declarations. -/
theorem ts_coffee_equivalence_amended_witness :
    ((RemotePeer.constructorConnects none = RemotePeerCoffee.constructorConnects none) ↔
      (none : Option Bool) = none) ∧
    RemotePeerCoffee.connect (.ok ())
        (RemotePeer.initState none [("a", .ok ⟨"k1"⟩)] [("c", { ordered := some true })])
      = RemotePeer.connect (.ok ())
        (RemotePeer.initState none [("a", .ok ⟨"k1"⟩)] [("c", { ordered := some true })]) :=
  ts_coffee_equivalence_amended none (.ok ())
    (RemotePeer.initState none [("a", .ok ⟨"k1"⟩)] [("c", { ordered := some true })])
    rfl rfl
